import Mathlib

/-!
Verification of the Fragment +888 code-fetcher client (src/bot.py).

The Python source is shallowly embedded below.  Pure helpers
(`normalize_to_888_digits`, `fragment_links`, the `\b\d{5,6}\b` extraction)
become Lean functions over `String` / `List Char` (ASCII fragment of
Python's `\d` / `\w`).  The stateful `FragmentClient` becomes explicit
state passing over `ClientState`; the browser engine's behaviour during a
single `get_code` call (whether the headless launch succeeds, whether
navigation times out, the rendered page text, the wall-clock time of the
cache write) is supplied as an explicit environment `ScrapeEnv`.
Timestamps are naturals; `now - ts <= ttl` uses truncated subtraction,
which agrees with the Python comparison for every `ts <= now` and also
classifies a future `ts` as fresh, exactly as the float comparison does
for a nonnegative `ttl`.

Concurrency of `get_code` (the single `asyncio.Lock`) is modelled
separately as an interleaving step relation `Step` over a pool of tasks,
mirroring the atomic sections of the coroutine between its await points:
cache check, lock acquisition, and the locked scrape.
-/

namespace EP

/-! ### Number normalization (`normalize_to_888_digits`, bot.py lines 58-73) -/

/-- `digits.startswith("888")` on a character list. -/
def startsWith888 : List Char → Bool
  | '8' :: '8' :: '8' :: _ => true
  | _ => false

/-- The conditional prepend step:
`if not digits.startswith("888"): if 3 <= len(digits) <= 15: digits = "888" + digits`. -/
def norm_step2 (digits : List Char) : List Char :=
  if !startsWith888 digits && decide (3 ≤ digits.length) && decide (digits.length ≤ 15)
  then '8' :: '8' :: '8' :: digits
  else digits

/-- The final validation:
`if not digits.startswith("888") or len(digits) < 7: return None; return digits`. -/
def norm_step3 (d2 : List Char) : Option (List Char) :=
  if !startsWith888 d2 || decide (d2.length < 7) then none else some d2

/-- Core of `normalize_to_888_digits` over character lists.
`re.sub(r"\D", "", s)` is `filter Char.isDigit` (ASCII digits). -/
def normCore (s : List Char) : Option (List Char) :=
  if s = [] then none
  else if s.filter Char.isDigit = [] then none
  else norm_step3 (norm_step2 (s.filter Char.isDigit))

/-- `normalize_to_888_digits` (bot.py lines 58-73): returns the normalized
digit string, or `none` for invalid input. -/
def normalize_to_888_digits (s : String) : Option String :=
  (normCore s.data).map (fun l => String.mk l)

/-! ### Links (`fragment_links`, bot.py lines 75-77) -/

def FRAGMENT_ORIGIN : String := "https://fragment.com"

/-- `fragment_links(digits)`: the number page and the code page URLs. -/
def fragment_links (digits : String) : String × String :=
  (FRAGMENT_ORIGIN ++ "/number/" ++ digits,
   FRAGMENT_ORIGIN ++ "/number/" ++ digits ++ "/code")

/-! ### Code extraction: `re.search(r"\b\d{5,6}\b", full_text)` (bot.py line 238)

ASCII model of Python's regex: `\d` is `Char.isDigit`, word characters are
ASCII alphanumerics and underscore, `\b` holds between a non-word (or text
edge) and a word character.  `re.search` returns the leftmost match; the
greedy `{5,6}` tries six digits before five at each position. -/

def isWordChar (c : Char) : Bool := c.isAlphanum || c == '_'

/-- `\b` before the match: the previous character (if any) is not a word
character.  (The first matched character is a digit, hence a word
character, so this is the full boundary condition.) -/
def boundaryBefore : Option Char → Bool
  | none => true
  | some c => !isWordChar c

/-- `\b` after the match: the next character (if any) is not a word character. -/
def afterOk : List Char → Bool
  | [] => true
  | c :: _ => !isWordChar c

/-- At the head of `cs` there are exactly `n` digits followed by a word
boundary: `n` characters are available, all digits, and the character
after them (if any) is not a word character. -/
def digitsOk (cs : List Char) (n : Nat) : Bool :=
  decide ((cs.take n).length = n) && (cs.take n).all Char.isDigit && afterOk (cs.drop n)

/-- Attempt to match `\d{5,6}\b` at the current position (greedy: six
digits first, then five).  The boundary before the position is checked by
the caller. -/
def matchHere (cs : List Char) : Option (List Char) :=
  if digitsOk cs 6 then some (cs.take 6)
  else if digitsOk cs 5 then some (cs.take 5)
  else none

/-- Leftmost search for `\b\d{5,6}\b`; `prev` is the character just before
the current position (`none` at the start of the text). -/
def re_search : Option Char → List Char → Option (List Char)
  | _, [] => none
  | prev, c :: rest =>
    if boundaryBefore prev then
      match matchHere (c :: rest) with
      | some r => some r
      | none => re_search (some c) rest
    else re_search (some c) rest

/-- `m = re.search(r"\b\d{5,6}\b", full_text); code = m.group(0) if m else None`. -/
def extract_code (s : String) : Option String :=
  (re_search none s.data).map (fun l => String.mk l)

/-- The character preceding position `i` of `cs`, where `prev` precedes
position 0. -/
def prevAt (prev : Option Char) (cs : List Char) : Nat → Option Char
  | 0 => prev
  | i + 1 => cs.get? i

/-- Specification-side notion "a word-bounded run of `n` digits starts at
position `i` of `cs`" (with `prev` the character before the text):
`n` is 5 or 6, the character before position `i` is a boundary, positions
`i..i+n-1` are digits, and the character at `i+n` (if any) is not a word
character. -/
def specRun (prev : Option Char) (cs : List Char) (i n : Nat) : Bool :=
  (decide (n = 5) || decide (n = 6)) && boundaryBefore (prevAt prev cs i)
    && digitsOk (cs.drop i) n

/-! ### The client state (`FragmentClient`, bot.py lines 87-250) -/

/-- Classification of one `get_code` outcome (the `hint` strings of
`CodeResult` in bot.py; `browser_not_ready` carries the exception text in
the source, which we drop). -/
inductive Hint
  | cached
  | ok
  | no_code_visible
  | timeout_opening_code_page
  | browser_not_ready
deriving DecidableEq, Repr

/-- `CodeResult` (bot.py lines 80-85). -/
structure CodeResult where
  digits : String
  code : Option String
  url : String
  hint : Hint
deriving DecidableEq, Repr

/-- The mutable state of `FragmentClient`: whether a headful login
browser is open (`_login_browser`/`_login_ctx`), whether the headless
fetch context exists (`_headless_ctx`), whether the session-state file
exists on disk, and the code cache `digits -> (ts, code)`.
The cache is an association list whose lookup takes the most recent
binding, matching dict assignment. -/
structure ClientState where
  loginOpen : Bool
  headlessOpen : Bool
  sessionFileExists : Bool
  cache : List (String × Nat × Option String)
deriving DecidableEq, Repr

/-- `self._cache.get(digits)`. -/
def cacheGet (cache : List (String × Nat × Option String)) (d : String) :
    Option (Nat × Option String) :=
  match cache with
  | [] => none
  | (k, v) :: rest => if k = d then some v else cacheGet rest d

/-- `self._cache[digits] = (ts, code)`. -/
def cachePut (cache : List (String × Nat × Option String)) (d : String)
    (ts : Nat) (code : Option String) : List (String × Nat × Option String) :=
  (d, ts, code) :: cache

/-- The cache-hit test of `get_code` (bot.py lines 204-205):
`hit and (now - hit[0] <= ttl) and hit[1]` — an entry exists, it is fresh,
and its code is non-empty (`hit[1]` truthy: not `None` and not `""`). -/
def cacheFresh (cache : List (String × Nat × Option String)) (d : String)
    (now ttl : Nat) : Option String :=
  match cacheGet cache d with
  | some (ts, some c) => if c ≠ "" ∧ now - ts ≤ ttl then some c else none
  | _ => none

/-- Behaviour of the external browser engine during one `get_code` call:
whether a lazy headless launch would succeed, the navigation outcome
(rendered page text, or timeout), and the wall-clock time at which the
cache write would happen. -/
inductive NavOutcome
  | ok (pageText : String)
  | timeout
deriving DecidableEq, Repr

structure ScrapeEnv where
  ensureOk : Bool
  nav : NavOutcome
  writeTime : Nat
deriving DecidableEq, Repr

/-- The locked scrape section of `get_code` (bot.py lines 214-250): open a
page, navigate (on timeout close the page and return
`timeout_opening_code_page` without touching the cache), otherwise read
the rendered text, extract the first `\b\d{5,6}\b` run, record the result
(even a `none` code) in the cache, and classify. -/
def scrapeStep (st : ClientState) (digits url : String) (env : ScrapeEnv) :
    CodeResult × ClientState :=
  match env.nav with
  | NavOutcome.timeout => (⟨digits, none, url, Hint.timeout_opening_code_page⟩, st)
  | NavOutcome.ok text =>
    (⟨digits, extract_code text, url,
      if (extract_code text).isSome then Hint.ok else Hint.no_code_visible⟩,
     { st with cache := cachePut st.cache digits env.writeTime (extract_code text) })

/-- `get_code(digits, ttl, force_refresh)` (bot.py lines 197-250).
`now` is the `time.time()` of the cache check.  Unless `force_refresh`, a
fresh non-empty cache entry is returned as `cached`.  Otherwise
`_ensure_headless` runs: a no-op if the context exists, else a launch that
may fail (`browser_not_ready`).  Then the scrape runs under the client
lock. -/
def get_code (st : ClientState) (digits : String) (ttl : Nat)
    (force_refresh : Bool) (now : Nat) (env : ScrapeEnv) :
    CodeResult × ClientState :=
  match if force_refresh then none else cacheFresh st.cache digits now ttl with
  | some c => (⟨digits, some c, (fragment_links digits).2, Hint.cached⟩, st)
  | none =>
    if st.headlessOpen then
      scrapeStep st digits (fragment_links digits).2 env
    else if env.ensureOk then
      scrapeStep { st with headlessOpen := true } digits (fragment_links digits).2 env
    else
      (⟨digits, none, (fragment_links digits).2, Hint.browser_not_ready⟩, st)

/-- `start_headful_login` (bot.py lines 134-151).  If a login browser is
already open, report that and change nothing; otherwise attempt the
headful launch (`launchOk` abstracts the whole `try` block), on failure
reset both login fields. -/
def start_headful_login (st : ClientState) (launchOk : Bool) :
    (Bool × String) × ClientState :=
  if st.loginOpen then
    ((true, "Headful window already open. Log in, then tap Save Session."), st)
  else if launchOk then
    ((true, "Headful window opened. Log in to Fragment, then come back and tap Save Session."),
     { st with loginOpen := true })
  else
    ((false, "Cannot open a visible browser here. Run once on a desktop to save session."), st)

/-- `save_headful_session` (bot.py lines 153-175).  Fails if no login is
in progress; otherwise persists the login context state (`storageOk`
abstracts `storage_state(path=...)`), closes the login browser, tears
down the headless context so the next fetch reloads the new session, and
clears the code cache. -/
def save_headful_session (st : ClientState) (storageOk : Bool) :
    (Bool × String) × ClientState :=
  if !st.loginOpen then
    ((false, "No headful session in progress. Tap Login/Refresh Session first."), st)
  else if storageOk then
    ((true, "Session saved. You can fetch codes now."),
     { loginOpen := false, headlessOpen := false, sessionFileExists := true, cache := [] })
  else
    ((false, "Failed to save session."), st)

/-- `disconnect` (bot.py lines 177-194).  Closes every context, clears
the cache, and removes the session file — the removal is wrapped in
`contextlib.suppress(Exception)`, so a failed delete (`removeOk = false`)
leaves the file in place and is otherwise ignored; the call always
returns `(True, "Disconnected. Session file removed.")`. -/
def disconnect (st : ClientState) (removeOk : Bool) :
    (Bool × String) × ClientState :=
  ((true, "Disconnected. Session file removed."),
   { loginOpen := false, headlessOpen := false,
     sessionFileExists := st.sessionFileExists && !removeOk, cache := [] })

/-! ### Interleaving model of concurrent `get_code` calls

`get_code` is a coroutine; between its await points it runs atomically.
For the concurrency claims we model a pool of tasks all fetching the same
`key` with the same `ttl`, each executing the phases of `get_code` in
order: the cache check (bot.py lines 202-206, which happens *before* the
lock), acquisition of the single client-wide `asyncio.Lock` (line 214),
and the locked scrape (lines 215-250, which writes the cache and releases
the lock).  A task that sees a fresh cache entry finishes immediately as
`cached`.  The scheduler is free: any runnable task may take the next
step.  `clock` advances by one at every step, standing for strictly
increasing `time.time()` readings; `scraped` is the code the page yields
to every scrape. -/

inductive TaskPC
  | ready
  | waitLock
  | scraping
  | finished (fromCache : Bool)
deriving DecidableEq, Repr

structure SysState where
  tasks : List TaskPC
  lock : Option Nat
  cache : List (String × Nat × Option String)
  clock : Nat
  scrapes : Nat
deriving DecidableEq, Repr

/-- One atomic step of some task `i` (the sections of `get_code` between
await points). -/
inductive Step (key : String) (ttl : Nat) (scraped : Option String) :
    SysState → SysState → Prop
  | checkHit (s : SysState) (i : Nat)
      (h : s.tasks.get? i = some TaskPC.ready)
      (hc : (cacheFresh s.cache key s.clock ttl).isSome = true) :
      Step key ttl scraped s
        { s with tasks := s.tasks.set i (TaskPC.finished true), clock := s.clock + 1 }
  | checkMiss (s : SysState) (i : Nat)
      (h : s.tasks.get? i = some TaskPC.ready)
      (hc : cacheFresh s.cache key s.clock ttl = none) :
      Step key ttl scraped s
        { s with tasks := s.tasks.set i TaskPC.waitLock, clock := s.clock + 1 }
  | acquire (s : SysState) (i : Nat)
      (h : s.tasks.get? i = some TaskPC.waitLock)
      (hl : s.lock = none) :
      Step key ttl scraped s
        { s with tasks := s.tasks.set i TaskPC.scraping, lock := some i,
                 clock := s.clock + 1 }
  | scrape (s : SysState) (i : Nat)
      (h : s.tasks.get? i = some TaskPC.scraping) :
      Step key ttl scraped s
        { s with tasks := s.tasks.set i (TaskPC.finished false),
                 cache := cachePut s.cache key s.clock scraped,
                 lock := none, scrapes := s.scrapes + 1, clock := s.clock + 1 }

/-- Reachability under the interleaving semantics. -/
inductive Reach (key : String) (ttl : Nat) (scraped : Option String) :
    SysState → SysState → Prop
  | refl (s : SysState) : Reach key ttl scraped s s
  | tail {a b c : SysState} :
      Reach key ttl scraped a b → Step key ttl scraped b c → Reach key ttl scraped a c

/-- The lock discipline: every task inside the scrape section holds the lock. -/
def LockInv (s : SysState) : Prop :=
  ∀ i, s.tasks.get? i = some TaskPC.scraping → s.lock = some i

/-! ### Concrete states for witnesses and counterexamples -/

def KEY : String := "88807083255"

def CODE : Option String := some "48213"

/-- Two concurrent `get_code KEY` tasks with `ttl = 0`, nothing cached. -/
def c3s0 : SysState := ⟨[TaskPC.ready, TaskPC.ready], none, [], 0, 0⟩

def c3s1 : SysState := ⟨[TaskPC.waitLock, TaskPC.ready], none, [], 1, 0⟩

def c3s2 : SysState := ⟨[TaskPC.waitLock, TaskPC.waitLock], none, [], 2, 0⟩

def c3s3 : SysState := ⟨[TaskPC.scraping, TaskPC.waitLock], some 0, [], 3, 0⟩

def c3s4 : SysState :=
  ⟨[TaskPC.finished false, TaskPC.waitLock], none, [(KEY, 3, CODE)], 4, 1⟩

def c3s5 : SysState :=
  ⟨[TaskPC.finished false, TaskPC.scraping], some 1, [(KEY, 3, CODE)], 5, 1⟩

def c3s6 : SysState :=
  ⟨[TaskPC.finished false, TaskPC.finished false], none,
   [(KEY, 5, CODE), (KEY, 3, CODE)], 6, 2⟩

/-- A client state with the headless context up and an empty cache. -/
def stEmpty : ClientState := ⟨false, true, true, []⟩

/-- A client state holding a fresh cached code for `KEY` (stored at time 0). -/
def stCached : ClientState := ⟨false, true, true, [(KEY, 0, CODE)]⟩

/-! ## Theorems -/

/-! ### List index/update helpers -/

theorem list_get_set_ne {α : Type} (l : List α) (a : α) (i j : Nat) (hij : ¬ i = j) :
    (l.set i a).get? j = l.get? j := by
  induction l generalizing i j with
  | nil => rfl
  | cons b t ih =>
    cases i with
    | zero =>
      cases j with
      | zero => exact absurd rfl hij
      | succ j2 => rfl
    | succ i2 =>
      cases j with
      | zero => rfl
      | succ j2 => exact ih i2 j2 (fun hh => hij (by rw [hh]))

theorem list_get_set_self {α : Type} (l : List α) (a b : α) (i : Nat)
    (h : l.get? i = some b) : (l.set i a).get? i = some a := by
  induction l generalizing i with
  | nil => exact Option.noConfusion h
  | cons c t ih =>
    cases i with
    | zero => rfl
    | succ i2 => exact ih i2 h

/-! ### Properties of `normalize_to_888_digits` -/

theorem norm_step2_digits (digits : List Char)
    (h : ∀ c ∈ digits, Char.isDigit c = true) :
    ∀ c ∈ norm_step2 digits, Char.isDigit c = true := by
  unfold norm_step2
  split
  · intro c hc
    simp only [List.mem_cons] at hc
    rcases hc with hc | hc | hc | hc
    · rw [hc]; rfl
    · rw [hc]; rfl
    · rw [hc]; rfl
    · exact h c hc
  · exact h

theorem norm_step2_of_starts (digits : List Char) (h : startsWith888 digits = true) :
    norm_step2 digits = digits := by
  unfold norm_step2
  rw [h]
  rfl

theorem norm_step3_some (d2 l : List Char) (h : norm_step3 d2 = some l) :
    l = d2 ∧ startsWith888 d2 = true ∧ 7 ≤ d2.length := by
  unfold norm_step3 at h
  by_cases hc : (!startsWith888 d2 || decide (d2.length < 7)) = true
  · rw [if_pos hc] at h
    exact Option.noConfusion h
  · rw [if_neg hc] at h
    rw [Bool.or_eq_true, not_or] at hc
    obtain ⟨h1, h2⟩ := hc
    refine ⟨(Option.some.inj h).symm, ?_, ?_⟩
    · revert h1
      cases startsWith888 d2 <;> simp
    · have h3 : ¬ (d2.length < 7) := fun hl => h2 (decide_eq_true hl)
      omega

theorem norm_step2_of_small (digits : List Char) (hns : startsWith888 digits = false)
    (h3 : 3 ≤ digits.length) (h15 : digits.length ≤ 15) :
    norm_step2 digits = '8' :: '8' :: '8' :: digits := by
  unfold norm_step2
  rw [hns, decide_eq_true h3, decide_eq_true h15]
  rfl

theorem norm_step2_of_out (digits : List Char)
    (h : ¬ (3 ≤ digits.length ∧ digits.length ≤ 15)) :
    norm_step2 digits = digits := by
  unfold norm_step2
  by_cases h3 : 3 ≤ digits.length
  · have h15 : ¬ digits.length ≤ 15 := fun hh => h ⟨h3, hh⟩
    simp [decide_eq_false h15]
  · simp [decide_eq_false h3]

theorem norm_step3_eq_none (d2 : List Char) (h : startsWith888 d2 = false) :
    norm_step3 d2 = none := by
  unfold norm_step3
  rw [h]
  rfl

theorem norm_step3_prepend_small (digits : List Char) (h : digits.length < 4) :
    norm_step3 ('8' :: '8' :: '8' :: digits) = none := by
  unfold norm_step3
  have h7 : ('8' :: '8' :: '8' :: digits).length < 7 := by
    simp only [List.length_cons]
    omega
  rw [decide_eq_true h7]
  simp

theorem norm_step3_prepend_ok (digits : List Char) (h : 4 ≤ digits.length) :
    norm_step3 ('8' :: '8' :: '8' :: digits) = some ('8' :: '8' :: '8' :: digits) := by
  unfold norm_step3
  have h7 : ¬ ('8' :: '8' :: '8' :: digits).length < 7 := by
    simp only [List.length_cons]
    omega
  rw [decide_eq_false h7]
  simp [startsWith888]

theorem normCore_some (s l : List Char) (h : normCore s = some l) :
    (∀ c ∈ l, Char.isDigit c = true) ∧ startsWith888 l = true ∧ 7 ≤ l.length := by
  unfold normCore at h
  by_cases h1 : s = []
  · rw [if_pos h1] at h
    exact Option.noConfusion h
  · rw [if_neg h1] at h
    by_cases h2 : s.filter Char.isDigit = []
    · rw [if_pos h2] at h
      exact Option.noConfusion h
    · rw [if_neg h2] at h
      obtain ⟨hl, hs, hlen⟩ := norm_step3_some _ _ h
      subst hl
      refine ⟨?_, hs, hlen⟩
      exact norm_step2_digits _ (fun c hc => List.of_mem_filter hc)

theorem normCore_idem (s l : List Char) (h : normCore s = some l) :
    normCore l = some l := by
  obtain ⟨hdig, hs, hlen⟩ := normCore_some s l h
  have hne : l ≠ [] := by
    intro hl
    rw [hl] at hlen
    simp at hlen
  have hfilter : l.filter Char.isDigit = l := List.filter_eq_self.mpr hdig
  unfold normCore
  rw [if_neg hne, hfilter, if_neg hne, norm_step2_of_starts l hs]
  unfold norm_step3
  rw [hs]
  have h7 : decide (l.length < 7) = false := decide_eq_false (by omega)
  rw [h7]
  rfl

/-- C9: for every raw input on which `normalize_to_888_digits` does not
return `none`, normalization is idempotent: normalizing the produced key
again returns the same key. -/
theorem C9_normalize_idempotent : ∀ (s r : String),
    normalize_to_888_digits s = some r → normalize_to_888_digits r = some r := by
  intro s r h
  unfold normalize_to_888_digits at h ⊢
  obtain ⟨l, hl, hr⟩ := Option.map_eq_some'.mp h
  have hdata : r.data = l := by rw [← hr]
  rw [hdata, normCore_idem s.data l hl]
  simp only [Option.map_some']
  rw [hr]

/-- Witness for C9 at the concrete input `"0708 3255"`, whose normal form
is `"88807083255"`. -/
theorem C9_normalize_idempotent_witness :
    normalize_to_888_digits "88807083255" = some "88807083255" :=
  C9_normalize_idempotent "0708 3255" "88807083255" (by decide)

/-- C10: every non-`none` result of normalization starts with `"888"` and
has at least 7 digits (and is all digits); and for an input whose digit
run does not already start with `"888"`, normalization succeeds exactly
when that run has between 4 and 15 digits (so in particular a longer run
not starting with `"888"` is rejected). -/
theorem C10_normalized_shape : ∀ (s : String),
    (∀ r, normalize_to_888_digits s = some r →
      startsWith888 r.data = true ∧ 7 ≤ r.length ∧ r.data.all Char.isDigit = true) ∧
    (s.data.filter Char.isDigit ≠ [] →
      startsWith888 (s.data.filter Char.isDigit) = false →
      ((normalize_to_888_digits s).isSome = true ↔
        (4 ≤ (s.data.filter Char.isDigit).length ∧
          (s.data.filter Char.isDigit).length ≤ 15))) := by
  intro s
  constructor
  · intro r h
    unfold normalize_to_888_digits at h
    obtain ⟨l, hl, hr⟩ := Option.map_eq_some'.mp h
    obtain ⟨hdig, hs, hlen⟩ := normCore_some s.data l hl
    have hdata : r.data = l := by rw [← hr]
    have hlength : r.length = l.length := by
      rw [← hr]
      rfl
    rw [hdata, hlength]
    exact ⟨hs, hlen, List.all_eq_true.mpr hdig⟩
  · intro hne hns
    have hsne : s.data ≠ [] := by
      intro hh
      rw [hh] at hne
      exact hne rfl
    unfold normalize_to_888_digits normCore
    rw [if_neg hsne, if_neg hne]
    by_cases hio : 3 ≤ (s.data.filter Char.isDigit).length ∧
        (s.data.filter Char.isDigit).length ≤ 15
    · rw [norm_step2_of_small _ hns hio.1 hio.2]
      by_cases h4 : 4 ≤ (s.data.filter Char.isDigit).length
      · rw [norm_step3_prepend_ok _ h4]
        simp only [Option.map_some', Option.isSome_some]
        exact ⟨fun _ => ⟨h4, hio.2⟩, fun _ => trivial⟩
      · rw [norm_step3_prepend_small _ (by omega)]
        simp only [Option.map_none', Option.isSome_none]
        exact ⟨fun hh => Bool.noConfusion hh, fun hh => absurd hh.1 h4⟩
    · rw [norm_step2_of_out _ hio, norm_step3_eq_none _ hns]
      simp only [Option.map_none', Option.isSome_none]
      refine ⟨fun hh => Bool.noConfusion hh, fun hh => ?_⟩
      obtain ⟨h4, h15⟩ := hh
      exact absurd ⟨by omega, h15⟩ hio

/-- Witness for C10 at `"0708 3255"` (8-digit run, no `"888"` yet):
its normal form starts with `"888"` and normalization succeeds. -/
theorem C10_normalized_shape_witness :
    startsWith888 ("88807083255" : String).data = true ∧
    (normalize_to_888_digits "0708 3255").isSome = true :=
  ⟨((C10_normalized_shape "0708 3255").1 "88807083255" (by decide)).1,
   ((C10_normalized_shape "0708 3255").2 (by decide) (by decide)).mpr (by decide)⟩

/-! ### Cache and fetch-path lemmas -/

theorem cacheFresh_isSome_iff (cache : List (String × Nat × Option String))
    (d : String) (now ttl : Nat) :
    (cacheFresh cache d now ttl).isSome = true ↔
      ∃ ts c, cacheGet cache d = some (ts, some c) ∧ c ≠ "" ∧ now - ts ≤ ttl := by
  unfold cacheFresh
  cases hg : cacheGet cache d with
  | none => simp
  | some v =>
    obtain ⟨ts, oc⟩ := v
    cases oc with
    | none => simp
    | some c =>
      show (if c ≠ "" ∧ now - ts ≤ ttl then some c else none).isSome = true ↔
        ∃ ts2 c2, some (ts, some c) = some (ts2, some c2) ∧ c2 ≠ "" ∧ now - ts2 ≤ ttl
      by_cases hc : c ≠ "" ∧ now - ts ≤ ttl
      · rw [if_pos hc]
        simp only [Option.isSome_some, true_iff]
        exact ⟨ts, c, rfl, hc⟩
      · rw [if_neg hc]
        simp only [Option.isSome_none]
        constructor
        · intro hh
          exact Bool.noConfusion hh
        · rintro ⟨ts2, c2, heq, hne, hle⟩
          rw [Option.some.injEq, Prod.mk.injEq, Option.some.injEq] at heq
          obtain ⟨hts, hcc⟩ := heq
          subst hts
          subst hcc
          exact absurd ⟨hne, hle⟩ hc

theorem scrapeStep_hint_ne_cached (st : ClientState) (d u : String) (env : ScrapeEnv) :
    (scrapeStep st d u env).1.hint ≠ Hint.cached := by
  unfold scrapeStep
  cases hnav : env.nav with
  | timeout => simp
  | ok text =>
    cases hx : (extract_code text).isSome with
    | true => simp [hx]
    | false => simp [hx]

theorem fetch_branch_hint_ne_cached (st : ClientState) (d u : String) (env : ScrapeEnv) :
    ((if st.headlessOpen then scrapeStep st d u env
      else if env.ensureOk then scrapeStep { st with headlessOpen := true } d u env
      else (⟨d, none, u, Hint.browser_not_ready⟩, st)) :
        CodeResult × ClientState).1.hint ≠ Hint.cached := by
  by_cases h1 : st.headlessOpen = true
  · rw [if_pos h1]
    exact scrapeStep_hint_ne_cached _ _ _ _
  · rw [if_neg h1]
    by_cases h2 : env.ensureOk = true
    · rw [if_pos h2]
      exact scrapeStep_hint_ne_cached _ _ _ _
    · rw [if_neg h2]
      simp

theorem get_code_cached_iff (st : ClientState) (d : String) (ttl : Nat)
    (force : Bool) (now : Nat) (env : ScrapeEnv) :
    ((get_code st d ttl force now env).1.hint = Hint.cached ↔
      (force = false ∧ (cacheFresh st.cache d now ttl).isSome = true)) := by
  unfold get_code
  cases force with
  | true =>
    constructor
    · intro hh
      exact absurd hh (fetch_branch_hint_ne_cached st d (fragment_links d).2 env)
    · rintro ⟨hf, _⟩
      exact Bool.noConfusion hf
  | false =>
    cases hcf : cacheFresh st.cache d now ttl with
    | some c =>
      constructor
      · intro _
        exact ⟨rfl, rfl⟩
      · intro _
        rfl
    | none =>
      constructor
      · intro hh
        exact absurd hh (fetch_branch_hint_ne_cached st d (fragment_links d).2 env)
      · rintro ⟨_, hs⟩
        exact Bool.noConfusion hs

/-- C1: a `cached` outcome is returned iff `force_refresh` is false, the
cache holds an entry for the key, that entry is fresh
(`now - fetchedAt <= ttl`) and its recorded code is non-empty; in every
other case the hint is not `cached` (the call proceeds to the fetch
path). -/
theorem C1_cached_iff : ∀ (st : ClientState) (d : String) (ttl : Nat)
    (force : Bool) (now : Nat) (env : ScrapeEnv),
    (get_code st d ttl force now env).1.hint = Hint.cached ↔
      (force = false ∧ ∃ ts c, cacheGet st.cache d = some (ts, some c) ∧
        c ≠ "" ∧ now - ts ≤ ttl) := by
  intro st d ttl force now env
  rw [get_code_cached_iff, cacheFresh_isSome_iff]

/-- C2 (amended): when navigation times out, `get_code` returns hint
`timeout_opening_code_page` with no code, and the client state — in
particular the code cache — is left completely unchanged: the miss is
NOT recorded. -/
theorem C2_timeout_no_record : ∀ (st : ClientState) (d : String) (ttl now wt : Nat),
    st.headlessOpen = true →
    cacheFresh st.cache d now ttl = none →
    (get_code st d ttl false now ⟨true, NavOutcome.timeout, wt⟩).1.hint =
        Hint.timeout_opening_code_page ∧
    (get_code st d ttl false now ⟨true, NavOutcome.timeout, wt⟩).1.code = none ∧
    (get_code st d ttl false now ⟨true, NavOutcome.timeout, wt⟩).2 = st := by
  intro st d ttl now wt hho hcf
  have hg : get_code st d ttl false now ⟨true, NavOutcome.timeout, wt⟩ =
      (⟨d, none, (fragment_links d).2, Hint.timeout_opening_code_page⟩, st) := by
    unfold get_code
    rw [hcf, hho]
    rfl
  rw [hg]
  exact ⟨rfl, rfl, rfl⟩

/-- Witness for the amended C2: a concrete timed-out call. -/
theorem C2_timeout_no_record_witness :
    (get_code stEmpty KEY 15 false 100 ⟨true, NavOutcome.timeout, 100⟩).1.hint =
      Hint.timeout_opening_code_page :=
  (C2_timeout_no_record stEmpty KEY 15 100 100 rfl rfl).1

/-- C2 counterexample: on a navigation timeout the code returns
`timeout_opening_code_page` with no code, but contrary to the claim the
miss is NOT recorded in the cache — the cache still has no entry for the
key afterwards. -/
theorem C2_counterexample :
    (get_code stEmpty KEY 15 false 100 ⟨true, NavOutcome.timeout, 100⟩).1.hint =
        Hint.timeout_opening_code_page ∧
    (get_code stEmpty KEY 15 false 100 ⟨true, NavOutcome.timeout, 100⟩).1.code = none ∧
    cacheGet (get_code stEmpty KEY 15 false 100 ⟨true, NavOutcome.timeout, 100⟩).2.cache KEY
      = none :=
  ⟨rfl, rfl, rfl⟩

/-- C4: after `disconnect` (which empties the cache), a `get_code` call
for a key that previously had a cache entry can never return `cached`. -/
theorem C4_disconnect_clears : ∀ (st : ClientState) (removeOk : Bool) (d : String)
    (e : Nat × Option String) (ttl : Nat) (force : Bool) (now : Nat) (env : ScrapeEnv),
    cacheGet st.cache d = some e →
    (get_code (disconnect st removeOk).2 d ttl force now env).1.hint ≠ Hint.cached := by
  intro st removeOk d e ttl force now env _ hh
  rw [get_code_cached_iff] at hh
  obtain ⟨_, hs⟩ := hh
  rw [cacheFresh_isSome_iff] at hs
  obtain ⟨ts, c, hg, _⟩ := hs
  exact Option.noConfusion hg

/-- Witness for C4: a key cached before `disconnect` is not served as
`cached` afterwards. -/
theorem C4_disconnect_clears_witness :
    (get_code (disconnect stCached true).2 KEY 15 false 0
        ⟨true, NavOutcome.timeout, 0⟩).1.hint ≠ Hint.cached :=
  C4_disconnect_clears stCached true KEY (0, CODE) 15 false 0
    ⟨true, NavOutcome.timeout, 0⟩ rfl

/-- C5: whenever `save_headful_session` succeeds, in the same operation
the code cache is cleared and the fetch context is torn down (the login
context is closed and the session file now exists), so the next fetch
rebuilds the headless context from the newly committed session state. -/
theorem C5_save_resets : ∀ (st : ClientState) (storageOk : Bool),
    (save_headful_session st storageOk).1.1 = true →
    (save_headful_session st storageOk).2.cache = [] ∧
    (save_headful_session st storageOk).2.headlessOpen = false ∧
    (save_headful_session st storageOk).2.loginOpen = false ∧
    (save_headful_session st storageOk).2.sessionFileExists = true := by
  intro st storageOk h
  unfold save_headful_session at h ⊢
  cases hlo : st.loginOpen with
  | false =>
    rw [hlo] at h
    exact Bool.noConfusion h
  | true =>
    rw [hlo] at h
    cases hso : storageOk with
    | false =>
      rw [hso] at h
      exact Bool.noConfusion h
    | true => exact ⟨rfl, rfl, rfl, rfl⟩

/-- Witness for C5: a successful save from an open login session. -/
theorem C5_save_resets_witness :
    (save_headful_session ⟨true, true, false, [(KEY, 0, CODE)]⟩ true).2.cache = [] :=
  (C5_save_resets ⟨true, true, false, [(KEY, 0, CODE)]⟩ true rfl).1

/-- C6: starting the login flow while a login browser is already open
returns ok with the already-open message and leaves the client state
completely unchanged — no second window is opened and the existing login
context is not replaced. -/
theorem C6_single_login : ∀ (st : ClientState) (launchOk : Bool),
    st.loginOpen = true →
    (start_headful_login st launchOk).1.1 = true ∧
    (start_headful_login st launchOk).1.2 =
      "Headful window already open. Log in, then tap Save Session." ∧
    (start_headful_login st launchOk).2 = st := by
  intro st launchOk h
  unfold start_headful_login
  rw [h]
  exact ⟨rfl, rfl, rfl⟩

/-- Witness for C6: a second start while a login window is open. -/
theorem C6_single_login_witness :
    (start_headful_login ⟨true, false, false, []⟩ true).2 = ⟨true, false, false, []⟩ :=
  (C6_single_login ⟨true, false, false, []⟩ true rfl).2.2

/-- C8 (amended): a failed session-file delete inside `disconnect` is
silently suppressed: the call still returns
`(true, "Disconnected. Session file removed.")`, the cache and contexts
are still cleared, and the session file is simply left as it was. -/
theorem C8_disconnect_suppresses : ∀ (st : ClientState),
    (disconnect st false).1 = (true, "Disconnected. Session file removed.") ∧
    (disconnect st false).2.cache = [] ∧
    (disconnect st false).2.loginOpen = false ∧
    (disconnect st false).2.headlessOpen = false ∧
    (disconnect st false).2.sessionFileExists = st.sessionFileExists := by
  intro st
  refine ⟨rfl, rfl, rfl, rfl, ?_⟩
  show (st.sessionFileExists && !false) = st.sessionFileExists
  rw [Bool.not_false, Bool.and_true]

/-- C8 counterexample: with the session file present and the delete
failing, `disconnect` still reports success (the I/O error does not
propagate as a failed result) and the file remains. -/
theorem C8_counterexample :
    (disconnect stCached false).1.1 = true ∧
    (disconnect stCached false).2.sessionFileExists = true :=
  ⟨rfl, rfl⟩

/-! ### Correctness of the `\b\d{5,6}\b` search -/

theorem digitsOk_nil_five : digitsOk [] 5 = false := rfl

theorem digitsOk_nil_six : digitsOk [] 6 = false := rfl

theorem specRun_nil (prev : Option Char) (i n : Nat) : specRun prev [] i n = false := by
  unfold specRun
  rw [List.drop_nil]
  by_cases h5 : n = 5
  · subst h5
    rw [digitsOk_nil_five, Bool.and_false]
  · by_cases h6 : n = 6
    · subst h6
      rw [digitsOk_nil_six, Bool.and_false]
    · rw [decide_eq_false h5, decide_eq_false h6]
      rfl

theorem prevAt_cons (prev : Option Char) (c : Char) (rest : List Char) (i : Nat) :
    prevAt prev (c :: rest) (i + 1) = prevAt (some c) rest i := by
  cases i with
  | zero => rfl
  | succ j => rfl

theorem specRun_cons (prev : Option Char) (c : Char) (rest : List Char) (i n : Nat) :
    specRun prev (c :: rest) (i + 1) n = specRun (some c) rest i n := by
  unfold specRun
  rw [prevAt_cons]
  rfl

theorem specRun_zero (prev : Option Char) (cs : List Char) (n : Nat) :
    specRun prev cs 0 n =
      ((decide (n = 5) || decide (n = 6)) && boundaryBefore prev && digitsOk cs n) := rfl

theorem matchHere_none_iff (cs : List Char) :
    matchHere cs = none ↔ (digitsOk cs 6 = false ∧ digitsOk cs 5 = false) := by
  unfold matchHere
  cases h6 : digitsOk cs 6 with
  | true => simp [h6]
  | false =>
    cases h5 : digitsOk cs 5 with
    | true => simp [h5]
    | false => simp [h5]

theorem matchHere_some (cs r : List Char) (h : matchHere cs = some r) :
    ∃ n, (n = 5 ∨ n = 6) ∧ digitsOk cs n = true ∧ r = cs.take n := by
  unfold matchHere at h
  by_cases h6 : digitsOk cs 6 = true
  · rw [if_pos h6] at h
    exact ⟨6, Or.inr rfl, h6, (Option.some.inj h).symm⟩
  · rw [if_neg h6] at h
    by_cases h5 : digitsOk cs 5 = true
    · rw [if_pos h5] at h
      exact ⟨5, Or.inl rfl, h5, (Option.some.inj h).symm⟩
    · rw [if_neg h5] at h
      exact Option.noConfusion h

theorem specRun_zero_false_of_matchHere_none (prev : Option Char) (cs : List Char)
    (hm : matchHere cs = none) (n : Nat) : specRun prev cs 0 n = false := by
  rw [specRun_zero]
  obtain ⟨h6f, h5f⟩ := (matchHere_none_iff cs).mp hm
  by_cases h5 : n = 5
  · subst h5
    rw [h5f, Bool.and_false]
  · by_cases h6 : n = 6
    · subst h6
      rw [h6f, Bool.and_false]
    · rw [decide_eq_false h5, decide_eq_false h6]
      rfl

theorem specRun_zero_false_of_no_boundary (prev : Option Char) (cs : List Char)
    (hb : boundaryBefore prev = false) (n : Nat) : specRun prev cs 0 n = false := by
  rw [specRun_zero, hb]
  simp

/-- If the leftmost search fails, no word-bounded 5-6 digit run exists
anywhere in the text. -/
theorem re_search_none (cs : List Char) : ∀ (prev : Option Char),
    re_search prev cs = none → ∀ i n, specRun prev cs i n = false := by
  induction cs with
  | nil =>
    intro prev _ i n
    exact specRun_nil prev i n
  | cons c rest ih =>
    intro prev h i n
    unfold re_search at h
    by_cases hb : boundaryBefore prev = true
    · rw [if_pos hb] at h
      cases hm : matchHere (c :: rest) with
      | some r =>
        rw [hm] at h
        exact Option.noConfusion h
      | none =>
        rw [hm] at h
        cases i with
        | zero => exact specRun_zero_false_of_matchHere_none prev (c :: rest) hm n
        | succ j =>
          rw [specRun_cons]
          exact ih (some c) h j n
    · have hbf : boundaryBefore prev = false := by
        revert hb
        cases boundaryBefore prev <;> simp
      rw [if_neg hb] at h
      cases i with
      | zero => exact specRun_zero_false_of_no_boundary prev (c :: rest) hbf n
      | succ j =>
        rw [specRun_cons]
        exact ih (some c) h j n

/-- If the leftmost search returns `r`, then `r` is a word-bounded 5-6
digit run, and it is the first one: no run starts at any earlier
position. -/
theorem re_search_some (cs : List Char) : ∀ (prev : Option Char) (r : List Char),
    re_search prev cs = some r →
    ∃ i n, specRun prev cs i n = true ∧ r = (cs.drop i).take n ∧
      ∀ j m, j < i → specRun prev cs j m = false := by
  induction cs with
  | nil =>
    intro prev r h
    exact Option.noConfusion h
  | cons c rest ih =>
    intro prev r h
    unfold re_search at h
    by_cases hb : boundaryBefore prev = true
    · rw [if_pos hb] at h
      cases hm : matchHere (c :: rest) with
      | some r2 =>
        rw [hm] at h
        obtain rfl : r2 = r := Option.some.inj h
        obtain ⟨n, hn, hok, hr⟩ := matchHere_some _ _ hm
        refine ⟨0, n, ?_, hr, ?_⟩
        · rw [specRun_zero, hb, hok]
          rcases hn with h5 | h6
          · subst h5
            rfl
          · subst h6
            rfl
        · intro j m hj
          exact absurd hj (Nat.not_lt_zero j)
      | none =>
        rw [hm] at h
        obtain ⟨i, n, h1, h2, h3⟩ := ih (some c) r h
        refine ⟨i + 1, n, ?_, h2, ?_⟩
        · rw [specRun_cons]
          exact h1
        · intro j m hj
          cases j with
          | zero => exact specRun_zero_false_of_matchHere_none prev (c :: rest) hm m
          | succ k =>
            rw [specRun_cons]
            exact h3 k m (Nat.lt_of_succ_lt_succ hj)
    · have hbf : boundaryBefore prev = false := by
        revert hb
        cases boundaryBefore prev <;> simp
      rw [if_neg hb] at h
      obtain ⟨i, n, h1, h2, h3⟩ := ih (some c) r h
      refine ⟨i + 1, n, ?_, h2, ?_⟩
      · rw [specRun_cons]
        exact h1
      · intro j m hj
        cases j with
        | zero => exact specRun_zero_false_of_no_boundary prev (c :: rest) hbf m
        | succ k =>
          rw [specRun_cons]
          exact h3 k m (Nat.lt_of_succ_lt_succ hj)

theorem get_code_scrape_ok (st : ClientState) (d : String) (ttl now wt : Nat)
    (text : String) (hho : st.headlessOpen = true) :
    get_code st d ttl true now ⟨true, NavOutcome.ok text, wt⟩ =
      (⟨d, extract_code text, (fragment_links d).2,
        if (extract_code text).isSome then Hint.ok else Hint.no_code_visible⟩,
       { st with cache := cachePut st.cache d wt (extract_code text) }) := by
  unfold get_code
  rw [if_pos hho]
  rfl

/-- C7: when the scrape navigates successfully, the extracted code is
exactly the first word-bounded run of 5-6 digits of the rendered text in
document order, with hint `ok`; when no such run exists, the code is
absent and the hint is `no_code_visible`; concretely, page text
`"...code: 48213..."` yields the code `"48213"`. -/
theorem C7_first_run : ∀ (st : ClientState) (d : String) (ttl now wt : Nat) (text : String),
    st.headlessOpen = true →
    ((∃ i n, specRun none text.data i n = true) →
      ∃ i n, specRun none text.data i n = true ∧
        (∀ j m, j < i → specRun none text.data j m = false) ∧
        (get_code st d ttl true now ⟨true, NavOutcome.ok text, wt⟩).1.code =
          some (String.mk ((text.data.drop i).take n)) ∧
        (get_code st d ttl true now ⟨true, NavOutcome.ok text, wt⟩).1.hint = Hint.ok) ∧
    ((∀ i n, specRun none text.data i n = false) →
      (get_code st d ttl true now ⟨true, NavOutcome.ok text, wt⟩).1.code = none ∧
      (get_code st d ttl true now ⟨true, NavOutcome.ok text, wt⟩).1.hint =
        Hint.no_code_visible) ∧
    extract_code "...code: 48213..." = some "48213" := by
  intro st d ttl now wt text hho
  refine ⟨?_, ?_, rfl⟩
  · rintro ⟨i0, n0, hrun⟩
    cases hsearch : re_search none text.data with
    | none =>
      exfalso
      rw [re_search_none text.data none hsearch i0 n0] at hrun
      exact Bool.noConfusion hrun
    | some r =>
      obtain ⟨i, n, h1, h2, h3⟩ := re_search_some text.data none r hsearch
      have hcode : extract_code text = some (String.mk ((text.data.drop i).take n)) := by
        unfold extract_code
        rw [hsearch, h2]
        rfl
      refine ⟨i, n, h1, h3, ?_, ?_⟩
      · rw [get_code_scrape_ok st d ttl now wt text hho]
        exact hcode
      · rw [get_code_scrape_ok st d ttl now wt text hho]
        show (if (extract_code text).isSome then Hint.ok else Hint.no_code_visible) = Hint.ok
        rw [hcode]
        rfl
  · intro hall
    cases hsearch : re_search none text.data with
    | some r =>
      exfalso
      obtain ⟨i, n, h1, _, _⟩ := re_search_some text.data none r hsearch
      rw [hall i n] at h1
      exact Bool.noConfusion h1
    | none =>
      have hcode : extract_code text = none := by
        unfold extract_code
        rw [hsearch]
        rfl
      constructor
      · rw [get_code_scrape_ok st d ttl now wt text hho]
        exact hcode
      · rw [get_code_scrape_ok st d ttl now wt text hho]
        show (if (extract_code text).isSome then Hint.ok else Hint.no_code_visible) =
          Hint.no_code_visible
        rw [hcode]
        rfl

/-- Witness for C7: the concrete page text from the spec scenario. -/
theorem C7_first_run_witness :
    (get_code stEmpty KEY 15 0 0 ⟨true, NavOutcome.ok "...code: 48213...", 0⟩).1.hint
      = Hint.ok := by
  obtain ⟨i, n, h1, h3, hcode, hhint⟩ :=
    (C7_first_run stEmpty KEY 15 0 0 "...code: 48213..." rfl).1 ⟨9, 5, by decide⟩
  exact hhint

/-! ### Mutual exclusion of scrapes, and the ttl=0 double-scrape trace -/

theorem step_lockInv {key : String} {ttl : Nat} {scraped : Option String}
    {a b : SysState} (hstep : Step key ttl scraped a b) (hinv : LockInv a) :
    LockInv b := by
  cases hstep with
  | checkHit i h hc =>
    intro j hj
    have hj2 : (a.tasks.set i (TaskPC.finished true)).get? j = some TaskPC.scraping := hj
    show a.lock = some j
    by_cases hij : i = j
    · subst hij
      rw [list_get_set_self a.tasks (TaskPC.finished true) TaskPC.ready i h] at hj2
      exact absurd hj2 (by decide)
    · rw [list_get_set_ne a.tasks (TaskPC.finished true) i j hij] at hj2
      exact hinv j hj2
  | checkMiss i h hc =>
    intro j hj
    have hj2 : (a.tasks.set i TaskPC.waitLock).get? j = some TaskPC.scraping := hj
    show a.lock = some j
    by_cases hij : i = j
    · subst hij
      rw [list_get_set_self a.tasks TaskPC.waitLock TaskPC.ready i h] at hj2
      exact absurd hj2 (by decide)
    · rw [list_get_set_ne a.tasks TaskPC.waitLock i j hij] at hj2
      exact hinv j hj2
  | acquire i h hl =>
    intro j hj
    have hj2 : (a.tasks.set i TaskPC.scraping).get? j = some TaskPC.scraping := hj
    show some i = some j
    by_cases hij : i = j
    · rw [hij]
    · rw [list_get_set_ne a.tasks TaskPC.scraping i j hij] at hj2
      have hlj := hinv j hj2
      rw [hl] at hlj
      exact Option.noConfusion hlj
  | scrape i h =>
    intro j hj
    have hj2 : (a.tasks.set i (TaskPC.finished false)).get? j = some TaskPC.scraping := hj
    show (none : Option Nat) = some j
    by_cases hij : i = j
    · subst hij
      rw [list_get_set_self a.tasks (TaskPC.finished false) TaskPC.scraping i h] at hj2
      exact absurd hj2 (by decide)
    · rw [list_get_set_ne a.tasks (TaskPC.finished false) i j hij] at hj2
      have h1 := hinv i h
      have h2 := hinv j hj2
      rw [h1] at h2
      exact absurd (Option.some.inj h2) hij

theorem reach_lockInv {key : String} {ttl : Nat} {scraped : Option String}
    {a b : SysState} (hr : Reach key ttl scraped a b) (ha : LockInv a) :
    LockInv b := by
  induction hr with
  | refl => exact ha
  | tail hab hbc ih => exact step_lockInv hbc ih

/-- C3 (amended, mutual-exclusion part): in every state reachable from an
initial state with a free lock and no task inside the scrape section, no
two tasks are ever scraping simultaneously — scrapes are globally
serialized by the single client lock. -/
theorem C3_mutual_exclusion : ∀ (key : String) (ttl : Nat) (scraped : Option String)
    (init s : SysState),
    init.lock = none →
    (∀ i, init.tasks.get? i ≠ some TaskPC.scraping) →
    Reach key ttl scraped init s →
    ∀ i j, s.tasks.get? i = some TaskPC.scraping →
      s.tasks.get? j = some TaskPC.scraping → i = j := by
  intro key ttl scraped init s hl hns hr i j hi hj
  have hbase : LockInv init := by
    intro k hk
    exact absurd hk (hns k)
  have hinv : LockInv s := reach_lockInv hr hbase
  have h1 := hinv i hi
  have h2 := hinv j hj
  rw [h1] at h2
  exact Option.some.inj h2

theorem c3step01 : Step KEY 0 CODE c3s0 c3s1 := Step.checkMiss c3s0 0 rfl rfl

theorem c3step12 : Step KEY 0 CODE c3s1 c3s2 := Step.checkMiss c3s1 1 rfl rfl

theorem c3step23 : Step KEY 0 CODE c3s2 c3s3 := Step.acquire c3s2 0 rfl rfl

theorem c3step34 : Step KEY 0 CODE c3s3 c3s4 := Step.scrape c3s3 0 rfl

theorem c3step45 : Step KEY 0 CODE c3s4 c3s5 := Step.acquire c3s4 1 rfl rfl

theorem c3step56 : Step KEY 0 CODE c3s5 c3s6 := Step.scrape c3s5 1 rfl

theorem c3reach3 : Reach KEY 0 CODE c3s0 c3s3 :=
  Reach.tail (Reach.tail (Reach.tail (Reach.refl c3s0) c3step01) c3step12) c3step23

theorem c3reach6 : Reach KEY 0 CODE c3s0 c3s6 :=
  Reach.tail (Reach.tail (Reach.tail c3reach3 c3step34) c3step45) c3step56

theorem c3s0_no_scraping : ∀ i, c3s0.tasks.get? i ≠ some TaskPC.scraping := by
  intro i
  match i with
  | 0 => decide
  | 1 => decide
  | n + 2 =>
    intro hh
    exact Option.noConfusion hh

/-- C3 counterexample: two concurrent `get_code` tasks for the same key
with `ttl = 0`, both checking the (empty) cache before either acquires
the lock, reach a state in which TWO scrapes have been performed — the
claim's "at most one actual page scrape" is false.  Both tasks finished
from a scrape, not from the cache. -/
theorem C3_counterexample :
    Reach KEY 0 CODE c3s0 c3s6 ∧
    c3s0.tasks = [TaskPC.ready, TaskPC.ready] ∧
    c3s0.cache = [] ∧ c3s0.lock = none ∧
    c3s6.scrapes = 2 ∧
    c3s6.tasks = [TaskPC.finished false, TaskPC.finished false] :=
  ⟨c3reach6, rfl, rfl, rfl, rfl, rfl⟩

/-- Witness for the amended C3: the mutual-exclusion theorem applied to a
concrete reachable state in which task 0 is scraping. -/
theorem C3_mutual_exclusion_witness :
    c3s3.tasks.get? 0 = some TaskPC.scraping ∧ (0 : Nat) = 0 :=
  ⟨rfl, C3_mutual_exclusion KEY 0 CODE c3s0 c3s3 rfl c3s0_no_scraping c3reach3 0 0 rfl rfl⟩

end EP

